import Mathlib

/-!
Verification development for the transport and batch-dispatch layer of the
n8n-nodes-mixpanel community node.

The TypeScript sources are shallowly embedded: JavaScript runtime values are
modelled by the inductive `JSValue`, JavaScript objects by ordered association
lists (`List (String × JSValue)`) with JS object-literal / assignment
semantics (`setKey`, `spreadInto`, `getField`), machine numbers by `Int`
(the timestamps involved are far below 2^53, so JS number arithmetic on them
is exact integer arithmetic), and fallible code by `Except`.  Strings that
are split character-by-character (insert ids, newline-delimited export
bodies) are handled through `List Char` via `String.data`.
-/

namespace MixpanelNode

/-- JavaScript runtime values as they occur in the node's data paths
(`IDataObject` values): `undefined`, `null`, booleans, numbers, strings,
arrays and plain objects (ordered key/value lists). -/
inductive JSValue where
  | undefined : JSValue
  | null : JSValue
  | bool : Bool → JSValue
  | num : Int → JSValue
  | str : String → JSValue
  | arr : List JSValue → JSValue
  | obj : List (String × JSValue) → JSValue

/-- JavaScript truthiness (`if (v)`) on the modelled value universe. -/
def jsTruthy : JSValue → Bool
  | .undefined => false
  | .null => false
  | .bool b => b
  | .num n => n != 0
  | .str s => s != ""
  | .arr _ => true
  | .obj _ => true

/-- The test `value === undefined || value === null || value === ''` used by
`cleanObject` (negation of the keep-condition on line 74 of the utils file). -/
def isEmptyish : JSValue → Bool
  | .undefined => true
  | .null => true
  | .str s => s == ""
  | _ => false

/-- `utils.toMilliseconds` (numeric branch): a value below 10,000,000,000 is
treated as seconds and multiplied by 1000, anything else is returned as is.
The string branch (`parseInt`) is not needed by the claims. -/
def toMilliseconds (ts : Int) : Int :=
  if ts < 10000000000 then ts * 1000 else ts

/-- `utils.toSeconds` (numeric branch): a value strictly above 10,000,000,000
is treated as milliseconds and floor-divided by 1000 (`Math.floor(ts / 1000)`
is floor division, hence `Int.fdiv`), anything else is returned as is. -/
def toSeconds (ts : Int) : Int :=
  if ts > 10000000000 then Int.fdiv ts 1000 else ts

/-- First-match field lookup on a modelled JS object.  JS objects built by
the embedded code have pairwise-distinct keys, so first match is the match. -/
def getField : List (String × JSValue) → String → Option JSValue
  | [], _ => none
  | (k, v) :: rest, key => if k = key then some v else getField rest key

/-- JS property assignment `o[key] = v`: overwrite in place if the key is
present, otherwise append the new key at the end (insertion order). -/
def setKey : List (String × JSValue) → String → JSValue → List (String × JSValue)
  | [], key, v => [(key, v)]
  | (k, w) :: rest, key, v =>
    if k = key then (key, v) :: rest else (k, w) :: setKey rest key v

/-- JS object-literal spread `{ ...base-fields, ...extra }`: each entry of
`extra` is assigned onto the accumulated object in order (last write wins). -/
def spreadInto (base extra : List (String × JSValue)) : List (String × JSValue) :=
  extra.foldl (fun acc kv => setKey acc kv.1 kv.2) base

/-- The `options` argument of `buildEventProperties` (`{time?, ip?}`). -/
structure EventOptions where
  time : Option Int
  ip : Option String

/-- The trailing statements of `buildEventProperties`: assign `time` (the
normalized caller value when `options.time` is truthy, i.e. present and
nonzero, else `Math.floor(Date.now() / 1000)` — the current clock is passed
in as `nowMs`), then assign `ip` when truthy. -/
def applyTimeIp (properties : List (String × JSValue)) (options : EventOptions)
    (nowMs : Int) : List (String × JSValue) :=
  let withTime :=
    match options.time with
    | some t =>
      if t != 0 then setKey properties "time" (JSValue.num (toSeconds t))
      else setKey properties "time" (JSValue.num (Int.fdiv nowMs 1000))
    | none => setKey properties "time" (JSValue.num (Int.fdiv nowMs 1000))
  match options.ip with
  | some ip => if ip != "" then setKey withTime "ip" (JSValue.str ip) else withTime
  | none => withTime

/-- `utils.buildEventProperties`: builds
`{token, distinct_id, $insert_id, ...additionalProperties}`, then assigns
`time` and `ip` as in `applyTimeIp`. -/
def buildEventProperties (token distinctId insertId : String)
    (additionalProperties : List (String × JSValue))
    (options : EventOptions) (nowMs : Int) : List (String × JSValue) :=
  let base := [("token", JSValue.str token),
               ("distinct_id", JSValue.str distinctId),
               ("$insert_id", JSValue.str insertId)]
  applyTimeIp (spreadInto base additionalProperties) options nowMs

/-- `utils.cleanObject`: drops entries whose value is `undefined`, `null` or
`''`; recurses into plain-object values (JS `typeof value === 'object' &&
!Array.isArray(value)`; `null` was already excluded) and keeps the cleaned
nested object only when it still has at least one key; keeps every other
value (including `0`, `false`, arrays and empty arrays) unchanged. -/
def cleanObject : List (String × JSValue) → List (String × JSValue)
  | [] => []
  | (k, JSValue.obj fields) :: rest =>
    let c := cleanObject fields
    if 0 < c.length then (k, JSValue.obj c) :: cleanObject rest
    else cleanObject rest
  | (k, v) :: rest =>
    if isEmptyish v then cleanObject rest else (k, v) :: cleanObject rest
termination_by l => sizeOf l

/-- `utils.splitIntoBatches`: the loop `for (i = 0; i < items.length;
i += batchSize) batches.push(items.slice(i, i + batchSize))`.  The source
would loop forever on `batchSize = 0`; the model returns `[]` there and all
theorems assume a positive batch size, as the specification does. -/
def splitIntoBatches (items : List α) (batchSize : Nat) : List (List α) :=
  if _h1 : batchSize = 0 then []
  else if h2 : items.isEmpty then []
  else items.take batchSize :: splitIntoBatches (items.drop batchSize) batchSize
termination_by items.length
decreasing_by
  have hne : items ≠ [] := by simpa [List.isEmpty_iff] using h2
  have hpos : 0 < items.length := List.length_pos.mpr hne
  simp only [List.length_drop]
  omega

/-- C2 as stated claims `toSeconds(t) = floor(t/1000)` at the boundary
`t = 10,000,000,000` itself, but the source guard is strict (`ts >
10000000000`), so the boundary value is returned unchanged. -/
theorem c2_counterexample :
    toSeconds 10000000000 = 10000000000 ∧ (10000000000 : Int) ≠ 10000000 := by
  constructor
  · rfl
  · decide

/-- C2 amended: for `t < 10,000,000,000` both classifications treat `t` as
seconds (`toMilliseconds t = t * 1000`, `toSeconds t = t`); for
`t > 10,000,000,000` both treat `t` as milliseconds (`toSeconds t =
floor (t / 1000)`, `toMilliseconds t = t`); at the boundary
`t = 10,000,000,000` itself both functions return `t` unchanged. -/
theorem c2_amended (t : Int) :
    (t < 10000000000 → toMilliseconds t = t * 1000 ∧ toSeconds t = t) ∧
    (10000000000 < t → toSeconds t = Int.fdiv t 1000 ∧ toMilliseconds t = t) ∧
    (toSeconds 10000000000 = 10000000000 ∧
      toMilliseconds 10000000000 = 10000000000) := by
  refine ⟨fun h => ⟨?_, ?_⟩, fun h => ⟨?_, ?_⟩, rfl, rfl⟩
  · simp [toMilliseconds, h]
  · simp [toSeconds]
    omega
  · simp [toSeconds, h]
  · simp [toMilliseconds]
    omega

theorem getField_setKey_self (o : List (String × JSValue)) (k : String) (v : JSValue) :
    getField (setKey o k v) k = some v := by
  induction o with
  | nil => simp [setKey, getField]
  | cons p rest ih =>
    obtain ⟨k0, w⟩ := p
    by_cases h : k0 = k
    · simp [setKey, h, getField]
    · simp [setKey, h, getField, ih]

theorem getField_setKey_ne (o : List (String × JSValue)) (k key : String) (v : JSValue)
    (h : k ≠ key) : getField (setKey o k v) key = getField o key := by
  induction o with
  | nil => simp [setKey, getField, h]
  | cons p rest ih =>
    obtain ⟨k0, w⟩ := p
    by_cases h0 : k0 = k
    · subst h0
      simp [setKey, getField, h]
    · by_cases h1 : k0 = key
      · simp [setKey, h0, getField, h1, Ne.symm h]
      · simp [setKey, h0, getField, h1, ih]

theorem spreadInto_nil (base : List (String × JSValue)) : spreadInto base [] = base := rfl

theorem spreadInto_cons (base : List (String × JSValue)) (k : String) (v : JSValue)
    (rest : List (String × JSValue)) :
    spreadInto base ((k, v) :: rest) = spreadInto (setKey base k v) rest := rfl

theorem getField_spreadInto_not_mem (base extra : List (String × JSValue)) (key : String)
    (h : key ∉ extra.map Prod.fst) :
    getField (spreadInto base extra) key = getField base key := by
  induction extra generalizing base with
  | nil => simp [spreadInto_nil]
  | cons p rest ih =>
    obtain ⟨k, v⟩ := p
    simp only [List.map_cons, List.mem_cons] at h
    push_neg at h
    rw [spreadInto_cons, ih _ h.2, getField_setKey_ne _ _ _ _ (fun hk => h.1 hk.symm)]

theorem getField_spreadInto_mem (base extra : List (String × JSValue)) (key : String)
    (v : JSValue) (hnodup : (extra.map Prod.fst).Nodup) (hmem : (key, v) ∈ extra) :
    getField (spreadInto base extra) key = some v := by
  induction extra generalizing base with
  | nil => cases hmem
  | cons p rest ih =>
    obtain ⟨k, w⟩ := p
    simp only [List.map_cons, List.nodup_cons] at hnodup
    rcases List.mem_cons.mp hmem with heq | hrest
    · obtain ⟨hk, hv⟩ := Prod.mk.injEq .. ▸ heq
      subst hk hv
      rw [spreadInto_cons,
        getField_spreadInto_not_mem _ _ _ (by simpa using hnodup.1),
        getField_setKey_self]
    · exact (spreadInto_cons ..).symm ▸ ih _ hnodup.2 hrest

theorem getField_applyTimeIp_ne (props : List (String × JSValue)) (options : EventOptions)
    (nowMs : Int) (key : String) (h1 : key ≠ "time") (h2 : key ≠ "ip") :
    getField (applyTimeIp props options nowMs) key = getField props key := by
  obtain ⟨time, ip⟩ := options
  cases time with
  | none =>
    cases ip with
    | none => simp [applyTimeIp, getField_setKey_ne _ _ _ _ (Ne.symm h1)]
    | some s =>
      by_cases hs : s = ""
      · simp [applyTimeIp, hs, getField_setKey_ne _ _ _ _ (Ne.symm h1)]
      · simp [applyTimeIp, hs, getField_setKey_ne _ _ _ _ (Ne.symm h1),
          getField_setKey_ne _ _ _ _ (Ne.symm h2)]
  | some t =>
    cases ip with
    | none =>
      by_cases ht : t = 0 <;>
        simp [applyTimeIp, ht, getField_setKey_ne _ _ _ _ (Ne.symm h1)]
    | some s =>
      by_cases hs : s = "" <;> by_cases ht : t = 0 <;>
        simp [applyTimeIp, hs, ht, getField_setKey_ne _ _ _ _ (Ne.symm h1),
          getField_setKey_ne _ _ _ _ (Ne.symm h2)]

theorem getField_applyTimeIp_time (props : List (String × JSValue)) (options : EventOptions)
    (nowMs : Int) (t : Int) (ht : options.time = some t) (hne : t ≠ 0) :
    getField (applyTimeIp props options nowMs) "time" = some (JSValue.num (toSeconds t)) := by
  obtain ⟨time, ip⟩ := options
  cases ht
  cases ip with
  | none => simp [applyTimeIp, hne, getField_setKey_self]
  | some s =>
    by_cases hs : s = "" <;>
      simp [applyTimeIp, hs, hne, getField_setKey_self,
        getField_setKey_ne _ _ _ _ (by decide : ("ip" : String) ≠ "time")]

/-- C1 as stated claims the returned `token` field always equals the
builder's `token` argument; but `additionalProperties` is spread *after*
the three synthesized keys in the object literal, so a caller-supplied
`token` wins the merge: with `extraProps = {token: 'evil'}` the call
`buildEventProperties('tok', 'u', 'i', extraProps, {})` returns a record
whose `token` is `'evil'`, not `'tok'`. -/
theorem c1_counterexample :
    getField (buildEventProperties "tok" "u" "i" [("token", JSValue.str "evil")]
        (EventOptions.mk none none) 0) "token" = some (JSValue.str "evil") ∧
      JSValue.str "evil" ≠ JSValue.str "tok" := by
  constructor
  · rfl
  · simp

/-- C1 amended: the returned record's `token`, `distinct_id` and
`$insert_id` fields equal the builder's arguments when `extraProps` does
not supply those keys, but when `extraProps` contains `token`,
`distinct_id` or `$insert_id`, the caller-supplied value overwrites the
synthesized one (last-write-wins during merge).  An explicit caller value
for `time` (present and nonzero in `options`) does take precedence: `time`
is assigned after the merge, so it equals `toSeconds` of the caller value
regardless of `extraProps`. -/
theorem c1_amended (token distinctId insertId : String)
    (extra : List (String × JSValue)) (options : EventOptions) (nowMs : Int)
    (hnodup : (extra.map Prod.fst).Nodup) :
    (("token" ∉ extra.map Prod.fst →
        getField (buildEventProperties token distinctId insertId extra options nowMs)
          "token" = some (JSValue.str token)) ∧
      ∀ v, ("token", v) ∈ extra →
        getField (buildEventProperties token distinctId insertId extra options nowMs)
          "token" = some v) ∧
    (("distinct_id" ∉ extra.map Prod.fst →
        getField (buildEventProperties token distinctId insertId extra options nowMs)
          "distinct_id" = some (JSValue.str distinctId)) ∧
      ∀ v, ("distinct_id", v) ∈ extra →
        getField (buildEventProperties token distinctId insertId extra options nowMs)
          "distinct_id" = some v) ∧
    (("$insert_id" ∉ extra.map Prod.fst →
        getField (buildEventProperties token distinctId insertId extra options nowMs)
          "$insert_id" = some (JSValue.str insertId)) ∧
      ∀ v, ("$insert_id", v) ∈ extra →
        getField (buildEventProperties token distinctId insertId extra options nowMs)
          "$insert_id" = some v) ∧
    (∀ t, options.time = some t → t ≠ 0 →
      getField (buildEventProperties token distinctId insertId extra options nowMs)
        "time" = some (JSValue.num (toSeconds t))) := by
  unfold buildEventProperties
  refine ⟨⟨fun h => ?_, fun v hv => ?_⟩, ⟨fun h => ?_, fun v hv => ?_⟩,
    ⟨fun h => ?_, fun v hv => ?_⟩, fun t ht hne => ?_⟩
  · rw [getField_applyTimeIp_ne _ _ _ _ (by decide) (by decide),
      getField_spreadInto_not_mem _ _ _ h]
    rfl
  · rw [getField_applyTimeIp_ne _ _ _ _ (by decide) (by decide),
      getField_spreadInto_mem _ _ _ _ hnodup hv]
  · rw [getField_applyTimeIp_ne _ _ _ _ (by decide) (by decide),
      getField_spreadInto_not_mem _ _ _ h]
    rfl
  · rw [getField_applyTimeIp_ne _ _ _ _ (by decide) (by decide),
      getField_spreadInto_mem _ _ _ _ hnodup hv]
  · rw [getField_applyTimeIp_ne _ _ _ _ (by decide) (by decide),
      getField_spreadInto_not_mem _ _ _ h]
    rfl
  · rw [getField_applyTimeIp_ne _ _ _ _ (by decide) (by decide),
      getField_spreadInto_mem _ _ _ _ hnodup hv]
  · exact getField_applyTimeIp_time _ _ _ _ ht hne

/-- Witness for `c1_amended`: `extraProps = {token: 'evil', price: 9}` with
an explicit caller time `1700000000000`. -/
theorem c1_amended_witness :
    getField (buildEventProperties "tok" "u" "i"
        [("token", JSValue.str "evil"), ("price", JSValue.num 9)]
        (EventOptions.mk (some 1700000000000) none) 7) "token" =
      some (JSValue.str "evil") ∧
    getField (buildEventProperties "tok" "u" "i"
        [("token", JSValue.str "evil"), ("price", JSValue.num 9)]
        (EventOptions.mk (some 1700000000000) none) 7) "distinct_id" =
      some (JSValue.str "u") ∧
    getField (buildEventProperties "tok" "u" "i"
        [("token", JSValue.str "evil"), ("price", JSValue.num 9)]
        (EventOptions.mk (some 1700000000000) none) 7) "time" =
      some (JSValue.num (toSeconds 1700000000000)) := by
  have h := c1_amended "tok" "u" "i"
    [("token", JSValue.str "evil"), ("price", JSValue.num 9)]
    (EventOptions.mk (some 1700000000000) none) 7 (by simp)
  exact ⟨h.1.2 _ (by simp), h.2.1.1 (by simp), h.2.2.2 1700000000000 rfl (by decide)⟩

/-- Witness for `c2_amended` at `t = 1700000000` (seconds side) and
`t = 1700000000000` (milliseconds side). -/
theorem c2_amended_witness :
    (toMilliseconds 1700000000 = 1700000000000 ∧ toSeconds 1700000000 = 1700000000) ∧
    (toSeconds 1700000000000 = 1700000000 ∧ toMilliseconds 1700000000000 = 1700000000000) := by
  refine ⟨?_, ?_⟩
  · exact (c2_amended 1700000000).1 (by decide)
  · exact (c2_amended 1700000000000).2.1 (by decide)

/-- Keep-condition of one `cleanObject` entry: plain objects survive iff
their cleaned body is nonempty; every other value survives iff it is not
`undefined`, `null` or `''`. -/
def valueKept : JSValue → Bool
  | JSValue.obj f => decide (0 < (cleanObject f).length)
  | v => !(isEmptyish v)

/-- Value transformation applied by `cleanObject` to a kept entry: plain
objects are cleaned recursively, everything else (arrays included) passes
through unchanged. -/
def valueCleaned : JSValue → JSValue
  | JSValue.obj f => JSValue.obj (cleanObject f)
  | v => v

theorem cleanObject_eq_filterMap (l : List (String × JSValue)) :
    cleanObject l = l.filterMap
      (fun p => if valueKept p.2 then some (p.1, valueCleaned p.2) else none) := by
  induction l with
  | nil => simp [cleanObject]
  | cons p rest ih =>
    obtain ⟨k, v⟩ := p
    cases v with
    | obj fields =>
      by_cases hc : 0 < (cleanObject fields).length <;>
        simp [cleanObject, hc, List.filterMap_cons, valueKept, valueCleaned, ih]
    | str s =>
      by_cases hs : s = "" <;>
        simp [cleanObject, hs, List.filterMap_cons, valueKept, valueCleaned, isEmptyish, ih]
    | _ =>
      simp [cleanObject, List.filterMap_cons, valueKept, valueCleaned, isEmptyish, ih]

/-- C3 as stated claims `cleanObject` removes exactly the keys whose value
is `undefined`, `null` or `''`, and preserves nested maps that become empty
after cleaning; but on `{g: {h: undefined}}` the code drops `g` entirely
(the cleaned nested map is empty, so the key is not re-added), even though
`g`'s value is neither `undefined`, `null` nor `''`. -/
theorem c3_counterexample :
    cleanObject [("g", JSValue.obj [("h", JSValue.undefined)])] = [] ∧
      isEmptyish (JSValue.obj [("h", JSValue.undefined)]) = false := by
  constructor
  · simp [cleanObject, isEmptyish]
  · rfl

/-- C3 amended: `cleanObject` removes exactly the keys whose value is
`undefined`, `null`, the empty string, or a nested map that cleans to the
empty map (such nested maps are dropped, not preserved); it preserves `0`,
`false` and empty arrays, recurses into nested maps but not into arrays
(array contents pass through unchanged), and on the claim's example record
it produces exactly `{a:'v', e:0, f:false, g:{i:'x'}}`. -/
theorem c3_amended (l : List (String × JSValue)) :
    cleanObject l = l.filterMap
      (fun p => if valueKept p.2 then some (p.1, valueCleaned p.2) else none) ∧
    valueKept (JSValue.num 0) = true ∧
    valueKept (JSValue.bool false) = true ∧
    valueKept (JSValue.arr []) = true ∧
    valueKept (JSValue.obj [("h", JSValue.undefined)]) = false ∧
    valueCleaned (JSValue.arr [JSValue.undefined, JSValue.null]) =
      JSValue.arr [JSValue.undefined, JSValue.null] ∧
    cleanObject [("a", JSValue.str "v"), ("b", JSValue.undefined), ("c", JSValue.null),
        ("d", JSValue.str ""), ("e", JSValue.num 0), ("f", JSValue.bool false),
        ("g", JSValue.obj [("h", JSValue.undefined), ("i", JSValue.str "x")])] =
      [("a", JSValue.str "v"), ("e", JSValue.num 0), ("f", JSValue.bool false),
        ("g", JSValue.obj [("i", JSValue.str "x")])] := by
  refine ⟨cleanObject_eq_filterMap l, rfl, rfl, rfl, ?_, rfl, ?_⟩
  · simp [valueKept, cleanObject, isEmptyish]
  · simp [cleanObject, isEmptyish]

theorem splitIntoBatches_nil (m : Nat) : splitIntoBatches ([] : List α) m = [] := by
  rw [splitIntoBatches]
  simp

theorem splitIntoBatches_cons (items : List α) (m : Nat) (hm : m ≠ 0)
    (hne : items ≠ []) :
    splitIntoBatches items m =
      items.take m :: splitIntoBatches (items.drop m) m := by
  rw [splitIntoBatches, dif_neg hm, dif_neg (by simpa [List.isEmpty_iff] using hne)]

theorem splitIntoBatches_length (items : List α) (m : Nat) (hm : m ≠ 0) :
    (splitIntoBatches items m).length = (items.length + m - 1) / m := by
  generalize hl : items.length = n
  induction n using Nat.strong_induction_on generalizing items with
  | _ n ih =>
    cases items with
    | nil =>
      rw [splitIntoBatches_nil]
      simp only [List.length_nil] at hl
      rw [List.length_nil, Nat.div_eq_of_lt (by omega)]
    | cons x rest =>
      have hne : x :: rest ≠ [] := List.cons_ne_nil x rest
      have hn : 0 < n := by
        rw [← hl]
        simp
      rw [splitIntoBatches_cons _ _ hm hne, List.length_cons,
        ih ((x :: rest).drop m).length (by simp [List.length_drop, ← hl]; omega) _ rfl,
        List.length_drop, hl]
      by_cases hcase : n ≤ m
      · have h0 : n - m = 0 := by omega
        rw [h0, Nat.div_eq_of_lt (by omega),
          Nat.div_eq_of_lt_le (by omega : 1 * m ≤ n + m - 1) (by omega)]
      · have harg : n + m - 1 = (n - m + m - 1) + m := by omega
        rw [harg, Nat.add_div_right _ (by omega)]

theorem splitIntoBatches_getElem (items : List α) (m : Nat) (hm : m ≠ 0) (i : Nat)
    (hi : i < (splitIntoBatches items m).length) :
    (splitIntoBatches items m)[i]? = some ((items.drop (i * m)).take m) := by
  induction i generalizing items with
  | zero =>
    cases items with
    | nil => rw [splitIntoBatches_nil] at hi; cases hi
    | cons x rest =>
      rw [splitIntoBatches_cons _ _ hm (List.cons_ne_nil x rest)]
      simp
  | succ i ihi =>
    cases items with
    | nil => rw [splitIntoBatches_nil] at hi; cases hi
    | cons x rest =>
      rw [splitIntoBatches_cons _ _ hm (List.cons_ne_nil x rest)] at hi ⊢
      rw [List.getElem?_cons_succ, ihi _ (by simpa using hi), List.drop_drop]
      have harith : m + i * m = (i + 1) * m := by ring
      rw [harith]

theorem splitIntoBatches_sizes (items : List α) (m : Nat) (hm : m ≠ 0) :
    ∀ b ∈ splitIntoBatches items m, b.length ≤ m := by
  generalize hl : items.length = n
  induction n using Nat.strong_induction_on generalizing items with
  | _ n ih =>
    cases items with
    | nil =>
      rw [splitIntoBatches_nil]
      intro b hb
      cases hb
    | cons x rest =>
      rw [splitIntoBatches_cons _ _ hm (List.cons_ne_nil x rest)]
      intro b hb
      rcases List.mem_cons.mp hb with rfl | hb
      · simp
      · exact ih ((x :: rest).drop m).length
          (by simp [List.length_drop, ← hl]; omega) _ rfl b hb

theorem splitIntoBatches_flatten (items : List α) (m : Nat) (hm : m ≠ 0) :
    (splitIntoBatches items m).flatten = items := by
  generalize hl : items.length = n
  induction n using Nat.strong_induction_on generalizing items with
  | _ n ih =>
    cases items with
    | nil => rw [splitIntoBatches_nil]; rfl
    | cons x rest =>
      rw [splitIntoBatches_cons _ _ hm (List.cons_ne_nil x rest), List.flatten_cons,
        ih ((x :: rest).drop m).length (by simp [List.length_drop, ← hl]; omega) _ rfl,
        List.take_append_drop]

/-- C4: for positive `m`, `splitIntoBatches` returns exactly
`⌈n / m⌉ = (n + m - 1) / m` batches; batch `i` is
`(records.drop (i·m)).take m`, i.e. the records at indices
`[i·m, min((i+1)·m, n))` in original order; every batch has size at most
`m` and every batch except possibly the last has size exactly `m`;
concatenating the batches yields the original list; and an empty input
yields zero batches (not one empty batch). -/
theorem c4_split_into_batches (items : List α) (m : Nat) (hm : 0 < m) :
    (splitIntoBatches items m).length = (items.length + m - 1) / m ∧
    (∀ i, i < (splitIntoBatches items m).length →
      (splitIntoBatches items m)[i]? = some ((items.drop (i * m)).take m)) ∧
    (∀ b ∈ splitIntoBatches items m, b.length ≤ m) ∧
    (∀ i, i + 1 < (splitIntoBatches items m).length →
      ∃ b, (splitIntoBatches items m)[i]? = some b ∧ b.length = m) ∧
    (splitIntoBatches items m).flatten = items ∧
    (items = [] → splitIntoBatches items m = []) := by
  have hm' : m ≠ 0 := Nat.pos_iff_ne_zero.mp hm
  refine ⟨splitIntoBatches_length items m hm',
    fun i hi => splitIntoBatches_getElem items m hm' i hi,
    splitIntoBatches_sizes items m hm',
    fun i hi => ?_,
    splitIntoBatches_flatten items m hm',
    fun h => by rw [h, splitIntoBatches_nil]⟩
  refine ⟨(items.drop (i * m)).take m,
    splitIntoBatches_getElem items m hm' i (by omega), ?_⟩
  have hlen := splitIntoBatches_length items m hm'
  rw [hlen] at hi
  have hub : (i + 2) * m ≤ items.length + m - 1 :=
    (Nat.le_div_iff_mul_le hm).mp (by omega)
  have hexp : (i + 2) * m = i * m + 2 * m := by ring
  rw [hexp] at hub
  rw [List.length_take, List.length_drop]
  omega

/-- Witness for `c4_split_into_batches` at `items = [10, 20, 30]`, `m = 2`
(two batches: `[10, 20]` and `[30]`). -/
theorem c4_split_into_batches_witness :
    0 < 2 ∧
    ((splitIntoBatches [10, 20, 30] 2).length = (3 + 2 - 1) / 2 ∧
    (∀ i, i < (splitIntoBatches [10, 20, 30] 2).length →
      (splitIntoBatches [10, 20, 30] 2)[i]? =
        some (([10, 20, 30].drop (i * 2)).take 2)) ∧
    (∀ b ∈ splitIntoBatches [10, 20, 30] 2, b.length ≤ 2) ∧
    (∀ i, i + 1 < (splitIntoBatches [10, 20, 30] 2).length →
      ∃ b, (splitIntoBatches [10, 20, 30] 2)[i]? = some b ∧ b.length = 2) ∧
    (splitIntoBatches [10, 20, 30] 2).flatten = [10, 20, 30] ∧
    ([10, 20, 30] = ([] : List Nat) → splitIntoBatches [10, 20, 30] 2 = [])) :=
  ⟨by decide, c4_split_into_batches [10, 20, 30] 2 (by decide)⟩

/-- `DEFAULTS.RETRY_ATTEMPTS` from the constants file. -/
def DEFAULTS_RETRY_ATTEMPTS : Nat := 3

/-- `DEFAULTS.RETRY_DELAY_MS` from the constants file. -/
def DEFAULTS_RETRY_DELAY_MS : Nat := 1000

/-- An error thrown by a batch processor.  `statusCode` is the optional HTTP
status `processBatchWithRetry` inspects to recognize rate limiting (429). -/
structure DispatchError where
  statusCode : Option Nat
  message : String
deriving DecidableEq

/-- Observable effects of one batch's retry loop: a processor invocation, or
an `await delay(ms)` backoff sleep. -/
inductive BatchEvent where
  | invoke : BatchEvent
  | sleep : Nat → BatchEvent
deriving DecidableEq

/-- The inner `for (attempt = 0; attempt < retryAttempts; attempt++)` loop of
`processBatchWithRetry`, for one batch.  `proc k` is the processor's `k`-th
invocation for this batch (the processor is effectful in the source, so its
successive outcomes are indexed explicitly), `attempt` the zero-based loop
counter, `remaining` the attempts left, and the `Option DispatchError`
argument the JS `lastError` variable.  On a 429 failure the loop sleeps
`base * 2 ^ attempt` and retries (the sleep also happens after the *last*
failed attempt, before the loop exits); any other failure is rethrown at
once.  `.ok none` models a loop that never ran (`retryAttempts = 0`): no
result is pushed and no error is thrown. -/
def retryGo (proc : Nat → Except DispatchError R) (base : Nat) :
    Nat → Nat → Option DispatchError →
      List BatchEvent × Except DispatchError (Option R)
  | _, 0, none => ([], Except.ok none)
  | _, 0, some e => ([], Except.error e)
  | attempt, remaining + 1, _ =>
    match proc attempt with
    | Except.ok r => ([BatchEvent.invoke], Except.ok (some r))
    | Except.error e =>
      if e.statusCode = some 429 then
        let rest := retryGo proc base (attempt + 1) remaining (some e)
        (BatchEvent.invoke :: BatchEvent.sleep (base * 2 ^ attempt) :: rest.1, rest.2)
      else ([BatchEvent.invoke], Except.error e)

/-- One batch's retry loop started at attempt 0 with `lastError = null`. -/
def retryBatch (proc : Nat → Except DispatchError R) (base retryAttempts : Nat) :
    List BatchEvent × Except DispatchError (Option R) :=
  retryGo proc base 0 retryAttempts none

/-- The `for (const batch of batches)` loop of `processBatchWithRetry`:
process each batch with the retry loop, accumulate pushed results in order,
and abort (propagating the error) as soon as one batch's loop throws.
`calls` counts processor invocations issued so far, so that `proc` receives
a global invocation index. -/
def processGo (proc : Nat → List T → Except DispatchError R)
    (base retryAttempts : Nat) :
    List (List T) → Nat → List BatchEvent × Except DispatchError (List R)
  | [], _ => ([], Except.ok [])
  | batch :: restBatches, calls =>
    let r := retryBatch (fun k => proc (calls + k) batch) base retryAttempts
    match r.2 with
    | Except.error e => (r.1, Except.error e)
    | Except.ok none =>
      let rr := processGo proc base retryAttempts restBatches
        (calls + r.1.count BatchEvent.invoke)
      (r.1 ++ rr.1, rr.2)
    | Except.ok (some v) =>
      let rr := processGo proc base retryAttempts restBatches
        (calls + r.1.count BatchEvent.invoke)
      (r.1 ++ rr.1,
        match rr.2 with
        | Except.ok vs => Except.ok (v :: vs)
        | Except.error e => Except.error e)

/-- `transport.processBatchWithRetry`: split `items` into batches of
`batchSize` (the same loop as `splitIntoBatches`), then dispatch each batch
through the retry loop.  The backoff base delay is the constant
`DEFAULTS.RETRY_DELAY_MS` in the source; it is a parameter `base` here so
theorems can quantify over it. -/
def processBatchWithRetry (items : List T) (batchSize : Nat)
    (proc : Nat → List T → Except DispatchError R)
    (retryAttempts base : Nat) :
    List BatchEvent × Except DispatchError (List R) :=
  processGo proc base retryAttempts (splitIntoBatches items batchSize) 0

theorem splitIntoBatches_single (items : List α) (batchSize : Nat)
    (hne : items ≠ []) (hfit : items.length ≤ batchSize) :
    splitIntoBatches items batchSize = [items] := by
  have hbs : batchSize ≠ 0 := by
    have := List.length_pos.mpr hne
    omega
  rw [splitIntoBatches_cons items batchSize hbs hne,
    List.take_of_length_le hfit, List.drop_eq_nil_of_le hfit, splitIntoBatches_nil]

/-- C5: for a single batch (the items fit in one batch) processed by
`processBatchWithRetry` with 3 maximum attempts and base delay `b`: a
processor that fails with a 429 rate-limit error on each of its three
invocations is invoked exactly 3 times, the sleeps between consecutive
invocations are `b` and `2·b`, and the final error then propagates (the
loop additionally performs its backoff sleep of `4·b` after the last failed
attempt before rethrowing, which the claim does not mention and which lies
after the final invocation, not between attempts); a processor that fails
with a non-429 error on the first attempt is invoked exactly once and that
error propagates immediately with no sleep at all. -/
theorem c5_retry_behavior {T R : Type} (b : Nat) (items : List T)
    (batchSize : Nat) (hne : items ≠ []) (hfit : items.length ≤ batchSize) :
    (∀ (proc : Nat → List T → Except DispatchError R) e0 e1 e2,
      proc 0 items = Except.error e0 → e0.statusCode = some 429 →
      proc 1 items = Except.error e1 → e1.statusCode = some 429 →
      proc 2 items = Except.error e2 → e2.statusCode = some 429 →
      processBatchWithRetry items batchSize proc 3 b =
        ([BatchEvent.invoke, BatchEvent.sleep b,
          BatchEvent.invoke, BatchEvent.sleep (b * 2),
          BatchEvent.invoke, BatchEvent.sleep (b * 4)], Except.error e2) ∧
      ([BatchEvent.invoke, BatchEvent.sleep b,
        BatchEvent.invoke, BatchEvent.sleep (b * 2),
        BatchEvent.invoke, BatchEvent.sleep (b * 4)].count BatchEvent.invoke = 3)) ∧
    (∀ (proc : Nat → List T → Except DispatchError R) e,
      proc 0 items = Except.error e → e.statusCode ≠ some 429 →
      processBatchWithRetry items batchSize proc 3 b =
        ([BatchEvent.invoke], Except.error e)) := by
  constructor
  · intro proc e0 e1 e2 hp0 hs0 hp1 hs1 hp2 hs2
    constructor
    · unfold processBatchWithRetry
      rw [splitIntoBatches_single items batchSize hne hfit]
      simp [processGo, retryBatch, retryGo, hp0, hs0, hp1, hs1, hp2, hs2,
        pow_succ]
    · simp [List.count_cons]
  · intro proc e hp he
    unfold processBatchWithRetry
    rw [splitIntoBatches_single items batchSize hne hfit]
    simp [processGo, retryBatch, retryGo, hp, he]

/-- Witness for `c5_retry_behavior`: one batch `[1]`, batch size 5, base
delay 1000, a persistently rate-limited processor and a processor failing
with status 500 on its first call. -/
theorem c5_retry_behavior_witness :
    (processBatchWithRetry [1] 5
        (fun _ _ => (Except.error (DispatchError.mk (some 429) "rate limited") :
          Except DispatchError (List Nat))) 3 1000 =
      ([BatchEvent.invoke, BatchEvent.sleep 1000,
        BatchEvent.invoke, BatchEvent.sleep (1000 * 2),
        BatchEvent.invoke, BatchEvent.sleep (1000 * 4)],
        Except.error (DispatchError.mk (some 429) "rate limited")) ∧
      ([BatchEvent.invoke, BatchEvent.sleep 1000,
        BatchEvent.invoke, BatchEvent.sleep (1000 * 2),
        BatchEvent.invoke, BatchEvent.sleep (1000 * 4)].count BatchEvent.invoke = 3)) ∧
    (processBatchWithRetry [1] 5
        (fun _ _ => (Except.error (DispatchError.mk (some 500) "server error") :
          Except DispatchError (List Nat))) 3 1000 =
      ([BatchEvent.invoke],
        Except.error (DispatchError.mk (some 500) "server error"))) := by
  have h := c5_retry_behavior (R := List Nat) 1000 [1] 5
    (by simp) (by simp)
  exact ⟨h.1 _ _ _ _ rfl rfl rfl rfl rfl rfl,
    h.2 _ _ rfl (by simp)⟩

/-- Fuel-driven decimal renderer: the digit characters of `n` (most
significant first) prepended to `acc`.  Models the template-literal
interpolation `${timestamp}` of a JS integer. -/
def natDigitsGo : Nat → Nat → List Char → List Char
  | 0, _, acc => acc
  | fuel + 1, n, acc =>
    if n < 10 then Char.ofNat (48 + n % 10) :: acc
    else natDigitsGo fuel (n / 10) (Char.ofNat (48 + n % 10) :: acc)

/-- Decimal digit characters of `n` (`n + 1` units of fuel always suffice
since `n < 10 ^ (n + 1)`). -/
def natDigits (n : Nat) : List Char := natDigitsGo (n + 1) n []

/-- Numeric value of a most-significant-first digit-character list; used to
show `natDigits` is injective. -/
def digitsToNat (l : List Char) : Nat :=
  l.foldl (fun acc c => acc * 10 + (c.toNat - 48)) 0

/-- `transport.generateInsertId`:
`` `${distinctId}_${timestamp}_${random}` `` over character lists; the
`Date.now()` timestamp and the `Math.random().toString(36).substring(2, 11)`
suffix are the two nondeterministic inputs, passed in explicitly. -/
def generateInsertId (distinctId : List Char) (timestampMs : Nat)
    (random : List Char) : List Char :=
  distinctId ++ '_' :: (natDigits timestampMs ++ '_' :: random)

theorem natDigitsGo_append (fuel : Nat) : ∀ (n : Nat) (acc : List Char),
    natDigitsGo fuel n acc = natDigitsGo fuel n [] ++ acc := by
  induction fuel with
  | zero => intro n acc; simp [natDigitsGo]
  | succ fuel ih =>
    intro n acc
    by_cases h : n < 10
    · simp [natDigitsGo, h]
    · simp only [natDigitsGo, if_neg h]
      rw [ih (n / 10) (Char.ofNat (48 + n % 10) :: acc),
        ih (n / 10) [Char.ofNat (48 + n % 10)]]
      simp

theorem mem_natDigitsGo (fuel : Nat) : ∀ (n : Nat) (acc : List Char) (c : Char),
    c ∈ natDigitsGo fuel n acc →
      c ∈ acc ∨ ∃ d, d < 10 ∧ c = Char.ofNat (48 + d) := by
  induction fuel with
  | zero => intro n acc c hc; exact Or.inl hc
  | succ fuel ih =>
    intro n acc c hc
    by_cases h : n < 10
    · simp only [natDigitsGo, if_pos h, List.mem_cons] at hc
      rcases hc with rfl | hc
      · exact Or.inr ⟨n % 10, Nat.mod_lt _ (by norm_num), rfl⟩
      · exact Or.inl hc
    · simp only [natDigitsGo, if_neg h] at hc
      rcases ih _ _ _ hc with hacc | hd
      · rcases List.mem_cons.mp hacc with rfl | hacc
        · exact Or.inr ⟨n % 10, Nat.mod_lt _ (by norm_num), rfl⟩
        · exact Or.inl hacc
      · exact Or.inr hd

theorem underscore_not_mem_natDigits (n : Nat) : '_' ∉ natDigits n := by
  intro hmem
  rcases mem_natDigitsGo _ _ _ _ hmem with h | ⟨d, hd, hc⟩
  · cases h
  · have hne : ∀ d, d < 10 → Char.ofNat (48 + d) ≠ '_' := by decide
    exact hne d hd hc.symm

theorem char_digit_toNat : ∀ d, d < 10 → (Char.ofNat (48 + d)).toNat = 48 + d := by
  decide

theorem digitsToNat_append_singleton (xs : List Char) (c : Char) :
    digitsToNat (xs ++ [c]) = digitsToNat xs * 10 + (c.toNat - 48) := by
  simp [digitsToNat, List.foldl_append]

theorem digitsToNat_natDigitsGo (fuel : Nat) : ∀ n, n < 10 ^ fuel →
    digitsToNat (natDigitsGo fuel n []) = n := by
  induction fuel with
  | zero =>
    intro n hn
    simp only [pow_zero, Nat.lt_one_iff] at hn
    subst hn
    rfl
  | succ fuel ih =>
    intro n hn
    by_cases h : n < 10
    · simp only [natDigitsGo, if_pos h, digitsToNat, List.foldl_cons,
        List.foldl_nil, Nat.zero_mul, Nat.zero_add]
      rw [char_digit_toNat _ (Nat.mod_lt _ (by norm_num))]
      omega
    · simp only [natDigitsGo, if_neg h]
      rw [natDigitsGo_append, digitsToNat_append_singleton]
      have h10 : n / 10 < 10 ^ fuel := by
        rw [Nat.div_lt_iff_lt_mul (by norm_num)]
        calc n < 10 ^ (fuel + 1) := hn
          _ = 10 ^ fuel * 10 := by ring
      rw [ih _ h10, char_digit_toNat _ (Nat.mod_lt _ (by norm_num))]
      omega

theorem digitsToNat_natDigits (n : Nat) : digitsToNat (natDigits n) = n := by
  apply digitsToNat_natDigitsGo
  calc n < 2 ^ (n + 1) := by
        have := Nat.lt_two_pow n
        have h2 : (2 : Nat) ^ n ≤ 2 ^ (n + 1) := Nat.pow_le_pow_right (by norm_num) (by omega)
        omega
    _ ≤ 10 ^ (n + 1) := Nat.pow_le_pow_left (by norm_num) _

theorem natDigits_inj {a b : Nat} (h : natDigits a = natDigits b) : a = b := by
  have ha := digitsToNat_natDigits a
  rw [h, digitsToNat_natDigits] at ha
  exact ha.symm

theorem splitOn_no_sep (xs : List Char) (h : '_' ∉ xs) :
    xs.splitOn '_' = [xs] := by
  apply List.splitOnP_eq_single
  intro x hx
  simp only [beq_iff_eq]
  intro hxe
  exact h (hxe ▸ hx)

theorem splitOn_append_sep (xs ys : List Char) (h : '_' ∉ xs) :
    (xs ++ '_' :: ys).splitOn '_' = xs :: ys.splitOn '_' := by
  apply List.splitOnP_first
  · intro x hx
    simp only [beq_iff_eq]
    intro hxe
    exact h (hxe ▸ hx)
  · simp

theorem splitOn_generateInsertId (id : List Char) (ts : Nat) (r : List Char)
    (hid : '_' ∉ id) (hr : '_' ∉ r) :
    (generateInsertId id ts r).splitOn '_' = [id, natDigits ts, r] := by
  unfold generateInsertId
  rw [splitOn_append_sep _ _ hid,
    splitOn_append_sep _ _ (underscore_not_mem_natDigits ts),
    splitOn_no_sep _ hr]

/-- C6 as stated claims every output of `generateInsertId` splits into
exactly 3 "_"-delimited segments whose first equals the distinct id; but a
distinct id that itself contains "_" produces more segments: with
`distinctId = "a_b"` (and any sampled timestamp/random suffix) the output
splits into 4 segments, the first being `"a"`. -/
theorem c6_counterexample :
    ((generateInsertId ['a', '_', 'b'] 5 ['r']).splitOn '_').length = 4 ∧
      ((generateInsertId ['a', '_', 'b'] 5 ['r']).splitOn '_').length ≠ 3 := by
  constructor <;> decide

/-- C6 amended: for every distinct id containing no underscore, and sampled
`(timestamp, random)` inputs whose random components contain no underscore
(the source's base-36 random suffix never does), two calls with distinct
`(timestamp, random)` pairs return distinct strings, every output starts
with the distinct id followed by `'_'`, and every output splits into
exactly 3 "_"-delimited segments — the distinct id, the decimal timestamp,
and the random suffix — so the first segment equals the input distinct
id. -/
theorem c6_amended (id r1 r2 : List Char) (ts1 ts2 : Nat)
    (hid : '_' ∉ id) (h1 : '_' ∉ r1) (h2 : '_' ∉ r2) :
    ((ts1, r1) ≠ (ts2, r2) →
      generateInsertId id ts1 r1 ≠ generateInsertId id ts2 r2) ∧
    (generateInsertId id ts1 r1).take (id.length + 1) = id ++ ['_'] ∧
    (generateInsertId id ts1 r1).splitOn '_' = [id, natDigits ts1, r1] ∧
    ((generateInsertId id ts1 r1).splitOn '_').length = 3 := by
  refine ⟨fun hne heq => ?_, ?_, splitOn_generateInsertId id ts1 r1 hid h1, ?_⟩
  · have hsplit := congrArg (List.splitOn '_') heq
    rw [splitOn_generateInsertId id ts1 r1 hid h1,
      splitOn_generateInsertId id ts2 r2 hid h2] at hsplit
    simp only [List.cons.injEq, and_true] at hsplit
    exact hne (by rw [natDigits_inj hsplit.2.1, hsplit.2.2])
  · show (id ++ '_' :: (natDigits ts1 ++ '_' :: r1)).take (id.length + 1) = _
    have hshape : id ++ '_' :: (natDigits ts1 ++ '_' :: r1) =
        (id ++ ['_']) ++ (natDigits ts1 ++ '_' :: r1) := by simp
    have hlen : (id ++ ['_']).length = id.length + 1 := by simp
    rw [hshape, ← hlen, List.take_left]
  · rw [splitOn_generateInsertId id ts1 r1 hid h1]
    rfl

/-- Witness for `c6_amended` at `id = "u1"`, timestamps 1 and 2, random
suffixes `"abc"` and `"xyz"`. -/
theorem c6_amended_witness :
    ((1, ['a', 'b', 'c']) ≠ ((2 : Nat), ['x', 'y', 'z']) →
      generateInsertId ['u', '1'] 1 ['a', 'b', 'c'] ≠
        generateInsertId ['u', '1'] 2 ['x', 'y', 'z']) ∧
    (generateInsertId ['u', '1'] 1 ['a', 'b', 'c']).take (['u', '1'].length + 1) =
      ['u', '1'] ++ ['_'] ∧
    (generateInsertId ['u', '1'] 1 ['a', 'b', 'c']).splitOn '_' =
      [['u', '1'], natDigits 1, ['a', 'b', 'c']] ∧
    ((generateInsertId ['u', '1'] 1 ['a', 'b', 'c']).splitOn '_').length = 3 :=
  c6_amended ['u', '1'] ['a', 'b', 'c'] ['x', 'y', 'z'] 1 2
    (by decide) (by decide) (by decide)

/-- JS `typeof v === 'object'`: true for `null`, arrays and plain objects. -/
def isObjectType : JSValue → Bool
  | JSValue.null => true
  | JSValue.arr _ => true
  | JSValue.obj _ => true
  | _ => false

/-- JS `response === 1 || response === '1'`. -/
def isLiteralOne : JSValue → Bool
  | JSValue.num n => n == 1
  | JSValue.str s => s == "1"
  | _ => false

/-- JS `response === 0 || response === '0'`. -/
def isLiteralZero : JSValue → Bool
  | JSValue.num n => n == 0
  | JSValue.str s => s == "0"
  | _ => false

/-- Response handling of `mixpanelIngestionApiRequest`, in source order:
`1`/`'1'` → `{success: true}`; `typeof === 'object'` → the body itself is
the result payload; `0`/`'0'` → throw (the `NodeOperationError` is
re-wrapped by the surrounding catch into a `NodeApiError` carrying the same
message, modelled as the error string); any other primitive →
`{success: true, response}`. -/
def handleIngestionResponse (response : JSValue) : Except String JSValue :=
  if isLiteralOne response then
    Except.ok (JSValue.obj [("success", JSValue.bool true)])
  else if isObjectType response then Except.ok response
  else if isLiteralZero response then
    Except.error
      "Mixpanel API returned failure status. Check your data format and credentials."
  else Except.ok (JSValue.obj [("success", JSValue.bool true), ("response", response)])

/-- C7: the ingestion dispatch returns a success result on body `1` (number
or string `'1'`), raises an error on body `0` (number or string `'0'`), and
returns an object body itself as the result payload. -/
theorem c7_ingestion_response :
    handleIngestionResponse (JSValue.num 1) =
      Except.ok (JSValue.obj [("success", JSValue.bool true)]) ∧
    handleIngestionResponse (JSValue.str "1") =
      Except.ok (JSValue.obj [("success", JSValue.bool true)]) ∧
    (∃ msg, handleIngestionResponse (JSValue.num 0) = Except.error msg) ∧
    (∃ msg, handleIngestionResponse (JSValue.str "0") = Except.error msg) ∧
    (∀ o, handleIngestionResponse (JSValue.obj o) = Except.ok (JSValue.obj o)) :=
  ⟨rfl, rfl, ⟨_, rfl⟩, ⟨_, rfl⟩, fun _ => rfl⟩

/-- JS `String.prototype.trim` over character lists: drop whitespace from
both ends. -/
def trimChars (l : List Char) : List Char :=
  ((l.dropWhile Char.isWhitespace).reverse.dropWhile Char.isWhitespace).reverse

/-- Response handling of `mixpanelExportApiRequest`: a string body is split
on `'\n'`, whitespace-only lines are discarded (`filter(line => line.trim())`),
and each remaining line is parsed as one JSON value (`JSON.parse` is the
platform's parser, passed in as `parse`; a parse failure throws, aborting
the whole call).  An array body passes through unchanged; any other body is
wrapped as a one-element sequence. -/
def normalizeExportResponse (parse : List Char → Option JSValue) :
    JSValue → Except String (List JSValue)
  | JSValue.str s =>
    let lines := (s.data.splitOn '\n').filter (fun l => !(trimChars l).isEmpty)
    lines.mapM (fun l =>
      match parse l with
      | some v => Except.ok v
      | none => Except.error "Invalid JSON line in export response")
  | JSValue.arr xs => Except.ok xs
  | v => Except.ok [v]

/-- `JSON.parse` restricted to the two lines of the specification's export
example. -/
def exampleParse : List Char → Option JSValue := fun l =>
  if l = "\x7b\"a\":1\x7d".data then some (JSValue.obj [("a", JSValue.num 1)])
  else if l = "\x7b\"b\":2\x7d".data then some (JSValue.obj [("b", JSValue.num 2)])
  else none

theorem mapM_parse_ok (parse : List Char → Option JSValue)
    (ls : List (List Char)) (h : ∀ l ∈ ls, (parse l).isSome) :
    (ls.mapM (fun l =>
        match parse l with
        | some v => Except.ok v
        | none => Except.error "Invalid JSON line in export response") :
      Except String (List JSValue)) = Except.ok (ls.filterMap parse) := by
  induction ls with
  | nil => rfl
  | cons x xs ih =>
    obtain ⟨v, hv⟩ := Option.isSome_iff_exists.mp (h x (by simp))
    rw [List.mapM_cons, hv]
    simp only [List.filterMap_cons, hv, ih (fun l hl => h l (by simp [hl]))]
    rfl

theorem mapM_parse_fail (parse : List Char → Option JSValue)
    (ls : List (List Char)) (l : List Char) (hl : l ∈ ls)
    (hnone : parse l = none) :
    (ls.mapM (fun l =>
        match parse l with
        | some v => Except.ok v
        | none => Except.error "Invalid JSON line in export response") :
      Except String (List JSValue)) =
      Except.error "Invalid JSON line in export response" := by
  induction ls with
  | nil => cases hl
  | cons x xs ih =>
    rcases List.mem_cons.mp hl with rfl | hmem
    · rw [List.mapM_cons, hnone]
      rfl
    · cases hx : parse x with
      | none =>
        rw [List.mapM_cons, hx]
        rfl
      | some v =>
        rw [List.mapM_cons, hx, ih hmem]
        rfl

/-- C8: export responses — the string body `'{"a":1}\n{"b":2}\n\n'` yields
exactly the records `{a:1}` then `{b:2}` (blank lines discarded); an array
body passes through unchanged; a single-object body is wrapped as a
one-element sequence; when every remaining line parses, the result is the
parsed lines in order; a line that fails to parse makes the whole call
raise an error with no partial result. -/
theorem c8_export_normalization :
    normalizeExportResponse exampleParse
        (JSValue.str "\x7b\"a\":1\x7d\n\x7b\"b\":2\x7d\n\n") =
      Except.ok [JSValue.obj [("a", JSValue.num 1)],
        JSValue.obj [("b", JSValue.num 2)]] ∧
    (∀ parse xs, normalizeExportResponse parse (JSValue.arr xs) = Except.ok xs) ∧
    (∀ parse o, normalizeExportResponse parse (JSValue.obj o) =
      Except.ok [JSValue.obj o]) ∧
    (∀ parse s,
      (∀ l ∈ (s.data.splitOn '\n').filter (fun l => !(trimChars l).isEmpty),
        (parse l).isSome) →
      normalizeExportResponse parse (JSValue.str s) =
        Except.ok (((s.data.splitOn '\n').filter
          (fun l => !(trimChars l).isEmpty)).filterMap parse)) ∧
    (∀ parse s l,
      l ∈ (s.data.splitOn '\n').filter (fun l => !(trimChars l).isEmpty) →
      parse l = none →
      normalizeExportResponse parse (JSValue.str s) =
        Except.error "Invalid JSON line in export response") := by
  refine ⟨rfl, fun _ _ => rfl, fun _ _ => rfl, fun parse s h => ?_, fun parse s l hl hnone => ?_⟩
  · exact mapM_parse_ok parse _ h
  · exact mapM_parse_fail parse _ l hl hnone

/-- Witness for `c8_export_normalization`: the all-lines-parse case on the
example body, and the fatal-parse-failure case on body `"x"` with a parser
that rejects every line. -/
theorem c8_export_normalization_witness :
    normalizeExportResponse exampleParse
        (JSValue.str "\x7b\"a\":1\x7d\n\x7b\"b\":2\x7d\n\n") =
      Except.ok ((("\x7b\"a\":1\x7d\n\x7b\"b\":2\x7d\n\n".data.splitOn '\n').filter
        (fun l => !(trimChars l).isEmpty)).filterMap exampleParse) ∧
    normalizeExportResponse (fun _ => none) (JSValue.str "x") =
      Except.error "Invalid JSON line in export response" :=
  ⟨(c8_export_normalization).2.2.2.1 exampleParse
      "\x7b\"a\":1\x7d\n\x7b\"b\":2\x7d\n\n" (by decide),
    (c8_export_normalization).2.2.2.2 (fun _ => none) "x" "x".data
      (by decide) rfl⟩

/-- The `mixpanelApi` credential record.  Optional fields are `Option`; the
n8n credential UI delivers an unfilled optional field as the empty string,
which the source treats the same as absent (JS falsiness). -/
structure MixpanelCredentials where
  projectToken : String
  projectSecret : String
  serviceAccountUsername : Option String
  serviceAccountSecret : Option String
  region : String

/-- The three API families of `getBaseUrl` (`ApiType` in the source). -/
inductive ApiType where
  | ingestion : ApiType
  | query : ApiType
  | export : ApiType

/-- `MIXPANEL_INGESTION_URLS` from the constants file. -/
def MIXPANEL_INGESTION_URLS (region : String) : Option String :=
  if region = "us" then some "https://api.mixpanel.com"
  else if region = "eu" then some "https://api-eu.mixpanel.com"
  else if region = "in" then some "https://api-in.mixpanel.com"
  else none

/-- `MIXPANEL_QUERY_URLS` from the constants file. -/
def MIXPANEL_QUERY_URLS (region : String) : Option String :=
  if region = "us" then some "https://mixpanel.com/api"
  else if region = "eu" then some "https://eu.mixpanel.com/api"
  else if region = "in" then some "https://in.mixpanel.com/api"
  else none

/-- `MIXPANEL_EXPORT_URLS` from the constants file. -/
def MIXPANEL_EXPORT_URLS (region : String) : Option String :=
  if region = "us" then some "https://data.mixpanel.com/api/2.0/export"
  else if region = "eu" then some "https://data-eu.mixpanel.com/api/2.0/export"
  else if region = "in" then some "https://data-in.mixpanel.com/api/2.0/export"
  else none

/-- `transport.getBaseUrl`: look the region up in the family's URL map and
throw `Invalid region` when absent. -/
def getBaseUrl (region : String) (apiType : ApiType) : Except String String :=
  match (match apiType with
    | ApiType.ingestion => MIXPANEL_INGESTION_URLS region
    | ApiType.query => MIXPANEL_QUERY_URLS region
    | ApiType.export => MIXPANEL_EXPORT_URLS region) with
  | some url => Except.ok url
  | none => Except.error ("Invalid region: " ++ region)

/-- JS falsiness of an optional string credential field: absent
(`undefined`) or the empty string. -/
def optStrFalsy : Option String → Bool
  | none => true
  | some s => s == ""

/-- `DEFAULTS.REQUEST_TIMEOUT_MS` from the constants file. -/
def DEFAULTS_REQUEST_TIMEOUT_MS : Nat := 30000

/-- The request options a dispatch function hands to the HTTP helper.
`basicAuth` models the `Authorization: Basic <base64(user:password)>`
header as the (user, password) pair before base64 encoding (the encoding is
a platform `Buffer` primitive and is injective, so nothing is lost). -/
structure RequestOptions where
  method : String
  uri : String
  basicAuth : Option (String × String)
  hasJsonBody : Bool
  timeoutMs : Nat

/-- `transport.mixpanelServiceAccountApiRequest` up to the point where the
built options are handed to the HTTP helper: if either service-account
field is falsy, throw the configuration error before anything else (in
particular before any request options exist, so no network request is
issued); otherwise resolve the query-family base URL and build the request
with Basic auth `(serviceAccountUsername, serviceAccountSecret)`, a JSON
body only for non-GET with a nonempty body, and the standard timeout. -/
def mixpanelServiceAccountApiRequest (credentials : MixpanelCredentials)
    (method endpoint : String) (body : List (String × JSValue)) :
    Except String RequestOptions :=
  if optStrFalsy credentials.serviceAccountUsername ||
      optStrFalsy credentials.serviceAccountSecret then
    Except.error
      "Service account credentials are required for this operation. Please configure them in your Mixpanel credentials."
  else
    match getBaseUrl credentials.region ApiType.query with
    | Except.error e => Except.error e
    | Except.ok baseUrl =>
      Except.ok (RequestOptions.mk method (baseUrl ++ endpoint)
        (some (credentials.serviceAccountUsername.getD "",
          credentials.serviceAccountSecret.getD ""))
        ((method != "GET") && !body.isEmpty)
        DEFAULTS_REQUEST_TIMEOUT_MS)

/-- C9: a service-account dispatch whose username or secret is absent from
the credentials fails with the configuration error before any request
options are built (no network request); when both are present (configured
with a non-empty value — an empty string is how an unfilled optional
credential arrives and is treated as absent), the request is sent with
Basic auth whose username is the service-account username and whose
password is the service-account secret. -/
theorem c9_service_account (credentials : MixpanelCredentials)
    (method endpoint : String) (body : List (String × JSValue)) :
    ((credentials.serviceAccountUsername = none ∨
        credentials.serviceAccountSecret = none) →
      mixpanelServiceAccountApiRequest credentials method endpoint body =
        Except.error
          "Service account credentials are required for this operation. Please configure them in your Mixpanel credentials.") ∧
    (∀ u s url, credentials.serviceAccountUsername = some u → u ≠ "" →
      credentials.serviceAccountSecret = some s → s ≠ "" →
      getBaseUrl credentials.region ApiType.query = Except.ok url →
      mixpanelServiceAccountApiRequest credentials method endpoint body =
        Except.ok (RequestOptions.mk method (url ++ endpoint) (some (u, s))
          ((method != "GET") && !body.isEmpty) DEFAULTS_REQUEST_TIMEOUT_MS)) := by
  constructor
  · intro h
    rcases h with h | h <;>
      simp [mixpanelServiceAccountApiRequest, optStrFalsy, h]
  · intro u s url hu hune hs hsne hurl
    simp [mixpanelServiceAccountApiRequest, optStrFalsy, hu, hs, hune, hsne, hurl]

/-- Witness for `c9_service_account`: credentials missing the secret (error
before any request), and fully configured credentials in region `us`
(request with Basic auth `("svc-user", "svc-secret")`). -/
theorem c9_service_account_witness :
    mixpanelServiceAccountApiRequest
        (MixpanelCredentials.mk "tok" "sec" (some "svc-user") none "us")
        "POST" "/2.0/lookup-tables" [] =
      Except.error
        "Service account credentials are required for this operation. Please configure them in your Mixpanel credentials." ∧
    mixpanelServiceAccountApiRequest
        (MixpanelCredentials.mk "tok" "sec" (some "svc-user") (some "svc-secret") "us")
        "POST" "/2.0/lookup-tables" [] =
      Except.ok (RequestOptions.mk "POST" ("https://mixpanel.com/api" ++ "/2.0/lookup-tables")
        (some ("svc-user", "svc-secret"))
        (("POST" != "GET") && !(List.isEmpty ([] : List (String × JSValue))))
        DEFAULTS_REQUEST_TIMEOUT_MS) :=
  ⟨(c9_service_account
      (MixpanelCredentials.mk "tok" "sec" (some "svc-user") none "us")
      "POST" "/2.0/lookup-tables" []).1 (Or.inr rfl),
    (c9_service_account
      (MixpanelCredentials.mk "tok" "sec" (some "svc-user") (some "svc-secret") "us")
      "POST" "/2.0/lookup-tables" []).2 "svc-user" "svc-secret"
      "https://mixpanel.com/api" rfl (by decide) rfl (by decide) rfl⟩

/-- JS `a || b` on modelled values. -/
def jsOr (a b : JSValue) : JSValue := if jsTruthy a then a else b

/-- The `as number` cast on a modelled value (exact for the numeric inputs
the claims quantify over). -/
def asNum : JSValue → Int
  | JSValue.num n => n
  | _ => 0

/-- The `as string` cast on a modelled value (exact for the string inputs
the claims quantify over). -/
def asString : JSValue → String
  | JSValue.str s => s
  | _ => ""

/-- One entry of the parsed `importEvents` JSON array, as accessed by its
per-event mapper: the fields the source reads (absent fields are
`undefined`).  `insertIdField` stands for the JS property `$insert_id`. -/
structure ImportEventData where
  distinct_id : JSValue
  distinctId : JSValue
  event : JSValue
  eventName : JSValue
  insertIdField : JSValue
  time : JSValue
  properties : JSValue

/-- The per-event mapper inside `importEvents` (event action, lines
332-360): validate `distinct_id`, event name and `time` by JS truthiness,
then shape `{event, properties: cleanObject({token, distinct_id,
$insert_id, time: toSeconds(time), ...properties})}`.  `genId` is
`generateInsertId` for the fallback insert id (nondeterministic in the
source, passed in); a truthy non-object `properties` value spreads to no
properties and is modelled as the empty map. -/
def shapeImportEvent (token : String) (genId : String → String)
    (e : ImportEventData) : Except String (String × List (String × JSValue)) :=
  let distinctId := jsOr e.distinct_id e.distinctId
  if !jsTruthy distinctId then Except.error "Each event must have a distinct_id"
  else
    let eventName := jsOr e.event e.eventName
    if !jsTruthy eventName then Except.error "Each event must have an event name"
    else if !jsTruthy e.time then
      Except.error "Each imported event must have a time field"
    else
      let insertId := jsOr e.insertIdField (JSValue.str (genId (asString distinctId)))
      let existingProperties :=
        match e.properties with
        | JSValue.obj f => f
        | _ => []
      Except.ok (asString eventName,
        cleanObject (spreadInto
          [("token", JSValue.str token),
            ("distinct_id", distinctId),
            ("$insert_id", insertId),
            ("time", JSValue.num (toSeconds (asNum e.time)))]
          existingProperties))

theorem getField_applyTimeIp_time_fallback (props : List (String × JSValue))
    (ip : Option String) (nowMs : Int) :
    getField (applyTimeIp props (EventOptions.mk (some 0) ip) nowMs) "time" =
      some (JSValue.num (Int.fdiv nowMs 1000)) := by
  cases ip with
  | none => simp [applyTimeIp, getField_setKey_self]
  | some s =>
    by_cases hs : s = "" <;>
      simp [applyTimeIp, hs, getField_setKey_self,
        getField_setKey_ne _ _ _ _ (by decide : ("ip" : String) ≠ "time")]

/-- C10: a numeric `time` of `0` at the public interface is treated as
absent, not as the epoch: `buildEventProperties` called with
`options.time = 0` sets the output `time` to the current clock in seconds
(`Math.floor(Date.now() / 1000)`, i.e. `nowMs` floor-divided by 1000)
instead of `0`, and the `importEvents` mapper raises
`'Each imported event must have a time field'` for an event whose `time`
field is `0` (given the earlier `distinct_id` and event-name checks
pass). -/
theorem c10_zero_time_is_absent (token distinctId insertId : String)
    (extra : List (String × JSValue)) (ip : Option String) (nowMs : Int)
    (genIdFn : String → String) (e : ImportEventData)
    (hd : jsTruthy (jsOr e.distinct_id e.distinctId))
    (hn : jsTruthy (jsOr e.event e.eventName))
    (ht : e.time = JSValue.num 0) :
    getField (buildEventProperties token distinctId insertId extra
        (EventOptions.mk (some 0) ip) nowMs) "time" =
      some (JSValue.num (Int.fdiv nowMs 1000)) ∧
    shapeImportEvent token genIdFn e =
      Except.error "Each imported event must have a time field" := by
  constructor
  · exact getField_applyTimeIp_time_fallback _ ip nowMs
  · have h0 : jsTruthy (JSValue.num 0) = false := rfl
    simp [shapeImportEvent, hd, hn, ht, h0]

/-- Witness for `c10_zero_time_is_absent`: clock at 1700000000123 ms, and a
concrete import event `{distinct_id: 'u', event: 'Purchase', time: 0}`. -/
theorem c10_zero_time_is_absent_witness :
    getField (buildEventProperties "tok" "u" "i" []
        (EventOptions.mk (some 0) none) 1700000000123) "time" =
      some (JSValue.num (Int.fdiv 1700000000123 1000)) ∧
    shapeImportEvent "tok" (fun s => s)
        (ImportEventData.mk (JSValue.str "u") JSValue.undefined
          (JSValue.str "Purchase") JSValue.undefined JSValue.undefined
          (JSValue.num 0) JSValue.undefined) =
      Except.error "Each imported event must have a time field" :=
  c10_zero_time_is_absent "tok" "u" "i" [] none 1700000000123 (fun s => s)
    (ImportEventData.mk (JSValue.str "u") JSValue.undefined
      (JSValue.str "Purchase") JSValue.undefined JSValue.undefined
      (JSValue.num 0) JSValue.undefined)
    (by decide) (by decide) rfl

end MixpanelNode
